import Mathlib

/-!
# Shallow embedding of the SPH fluid simulation engine

This file embeds the SPH (Smoothed Particle Hydrodynamics) engine of the
`flow_visualizer` repository (`src/core/sph-simulator.ts`, class
`SPHSimulator`) and proves properties of the per-step physics pipeline
(density → pressure → forces → integration → boundary enforcement), of the
lattice seeding / reset operations, and of the accessor methods.

Numbers are modelled as exact reals (`ℝ`); `Math.PI` becomes `Real.pi`.
3-vectors (`gl-matrix` `vec3`) are modelled as `Fin 3 → ℝ`; particle arrays
as `List Particle`.  In-place field mutation inside a `forEach` is modelled
either as a `List.map` (when an iteration never reads a field written by an
earlier iteration — the density, pressure and integration passes) or as a
sequential fold over indices (the force pass, which reads velocities it has
already overwritten).  The `for`-loops of `initializeParticles`, whose
termination depends on the spacing argument, are modelled with explicit
fuel.  A second, store-based model at the end of the file makes the
reference (aliasing) semantics of the `vec3` objects explicit for claims
about the accessor methods.
-/

open scoped Classical

noncomputable section

/-- A 3-vector (`gl-matrix` `vec3`); component `k` is axis x/y/z for
`k = 0/1/2`. -/
abbrev Vec3 : Type := Fin 3 → ℝ

/-- Source `vec3.distance`: Euclidean distance between two points. -/
def dist3 (a b : Vec3) : ℝ :=
  Real.sqrt (∑ k : Fin 3, (a k - b k) ^ 2)

/-- The `SPHParticle` record: position, velocity, density, pressure. -/
structure Particle where
  position : Vec3
  velocity : Vec3
  density : ℝ
  pressure : ℝ

/-- A default particle, used as the default value of `List.getD` lookups. -/
def dummy : Particle :=
  { position := 0, velocity := 0, density := 0, pressure := 0 }

/-- The engine's `simulationParams` record: kernel smoothing radius `h`,
rest density, viscosity coefficient and pressure stiffness coefficient. -/
structure SimParams where
  kernelRadius : ℝ
  restDensity : ℝ
  viscosityCoefficient : ℝ
  pressureCoefficient : ℝ

/-- The constructor's defaults for `simulationParams`
(`kernelRadius: 0.1, restDensity: 1000, viscosityCoefficient: 0.1,
pressureCoefficient: 50`). -/
def defaultParams : SimParams :=
  { kernelRadius := 0.1
    restDensity := 1000
    viscosityCoefficient := 0.1
    pressureCoefficient := 50 }

/-- Engine state: the particle array, the simulation parameters, and the
axis-aligned bounding box (the code stores a box mesh built from the
constructor's bounds and re-derives the same min/max corners from it at
each collision check; we store the corners directly). -/
structure SPHState where
  particles : List Particle
  prm : SimParams
  bmin : Vec3
  bmax : Vec3

/-- Source `setSimulationParameters`: replaces rest density, viscosity and
pressure stiffness (`flowRate * 50`); `kernelRadius` is kept. -/
def setSimulationParameters (s : SPHState)
    (density viscosity flowRate : ℝ) : SPHState :=
  { s with prm :=
    { kernelRadius := s.prm.kernelRadius
      restDensity := density
      viscosityCoefficient := viscosity
      pressureCoefficient := flowRate * 50 } }

/-- Source `poly6Kernel(distance)`:
`max(0, 315/(64·π·h⁹) · (h² − distance²)³)`. -/
def poly6Kernel (h r : ℝ) : ℝ :=
  max 0 ((315 / (64 * Real.pi * h ^ 9)) * (h * h - r * r) ^ 3)

/-- The inner `forEach` of `calculateDensity`: accumulate
`poly6Kernel(distance)` over every particle of the array (the particle
itself included) whose distance from `pos` is `< kernelRadius`. -/
def densityLoop (prm : SimParams) (P : List Particle) (pos : Vec3) : ℝ :=
  P.foldl
    (fun d q =>
      if dist3 pos q.position < prm.kernelRadius then
        d + poly6Kernel prm.kernelRadius (dist3 pos q.position)
      else d)
    0

/-- Source `calculateDensity`: recompute every particle's density from the current
position snapshot (the pass writes only `density` and reads only
positions, so the mutating `forEach` is a map). -/
def calculateDensity (prm : SimParams) (P : List Particle) : List Particle :=
  P.map fun p => { p with density := densityLoop prm P p.position }

/-- Source `calculatePressure`:
`pressure = pressureCoefficient * (density - restDensity)`. -/
def calculatePressure (prm : SimParams) (P : List Particle) : List Particle :=
  P.map fun p =>
    { p with pressure := prm.pressureCoefficient * (p.density - prm.restDensity) }

/-- Source `calculatePressureForce`: `(pos₂ − pos₁)` scaled by
`(pressure₁ + pressure₂) / (2 · density₂)`. -/
def calculatePressureForce (p1 p2 : Particle) : Vec3 :=
  ((p1.pressure + p2.pressure) / (2 * p2.density)) • (p2.position - p1.position)

/-- Source `calculateViscosityForce`: `velocity₂ − velocity₁`. -/
def calculateViscosityForce (p1 p2 : Particle) : Vec3 :=
  p2.velocity - p1.velocity

/-- The inner `forEach` of `applyForces` for the particle at index `i` of
the current array `P`: accumulate the pressure and viscosity pair forces
over every index `j` with `j ≠ i` (the code compares object identities;
every particle is pushed as a fresh object, so identity coincides with the
index) whose distance from particle `i` is `< kernelRadius`. -/
def forcesFor (prm : SimParams) (P : List Particle) (i : ℕ) : Vec3 × Vec3 :=
  (List.range P.length).foldl
    (fun acc j =>
      if j ≠ i ∧
          dist3 (P.getD i dummy).position (P.getD j dummy).position
            < prm.kernelRadius then
        (acc.1 + calculatePressureForce (P.getD i dummy) (P.getD j dummy),
         acc.2 + calculateViscosityForce (P.getD i dummy) (P.getD j dummy))
      else acc)
    (0, 0)

/-- One iteration of the outer `forEach` of `applyForces`: scale the
accumulated pressure force by `deltaTime` and the accumulated viscosity
force by `viscosityCoefficient * deltaTime`, and add both into the
velocity of particle `i` of the current array. -/
def forceBody (prm : SimParams) (dt : ℝ) (P : List Particle) (i : ℕ) :
    List Particle :=
  let p := P.getD i dummy
  let f := forcesFor prm P i
  P.set i
    { p with velocity :=
        p.velocity + dt • f.1 + (prm.viscosityCoefficient * dt) • f.2 }

/-- The first `k` iterations of the outer `forEach` of `applyForces`
(the loop mutates the array in place, so iteration `i` reads the
velocities already updated by iterations `0 … i−1`). -/
def partialForces (prm : SimParams) (dt : ℝ) (P : List Particle) (k : ℕ) :
    List Particle :=
  (List.range k).foldl (forceBody prm dt) P

/-- Source `applyForces(deltaTime)`: run the body for every particle index in
order. -/
def applyForces (prm : SimParams) (dt : ℝ) (P : List Particle) :
    List Particle :=
  partialForces prm dt P P.length

/-- Integration `position += velocity * deltaTime` (`vec3.scaleAndAdd`). -/
def integrate (dt : ℝ) (p : Particle) : Particle :=
  { p with position := fun k => p.position k + p.velocity k * dt }

/-- One axis of `handleBoundaryCollision`: the two successive `if`s of the
source — clamp below `lo` (damping the velocity), then clamp above `hi`
(damping the velocity). -/
def clampAxis (lo hi p v : ℝ) : ℝ × ℝ :=
  let a := if p < lo then (lo, v * (-0.5)) else (p, v)
  if a.1 > hi then (hi, a.2 * (-0.5)) else a

/-- Source `handleBoundaryCollision`: apply `clampAxis` on each axis
independently. -/
def handleBoundaryCollision (bmin bmax : Vec3) (p : Particle) : Particle :=
  { p with
    position := fun k => (clampAxis (bmin k) (bmax k) (p.position k) (p.velocity k)).1
    velocity := fun k => (clampAxis (bmin k) (bmax k) (p.position k) (p.velocity k)).2 }

/-- Source `updatePositions(deltaTime)`: integrate each particle and resolve its
boundary collisions (each iteration touches only its own particle). -/
def updatePositions (bmin bmax : Vec3) (dt : ℝ) (P : List Particle) :
    List Particle :=
  P.map fun p => handleBoundaryCollision bmin bmax (integrate dt p)

/-- Source `step(deltaTime)`: density → pressure → forces → integration/boundary.
The source performs no validation of `deltaTime`. -/
def step (s : SPHState) (dt : ℝ) : SPHState :=
  { s with particles :=
      (updatePositions s.bmin s.bmax dt
        (applyForces s.prm dt
          (calculatePressure s.prm
            (calculateDensity s.prm s.particles)))) }

/-- Accessor `getParticlePositions` in the value model: the list of positions in
particle order (the reference semantics of the returned `vec3` objects is
treated by the store model at the end of the file). -/
def getParticlePositions (s : SPHState) : List Vec3 :=
  s.particles.map fun p => p.position

/-- Accessor `getParticleVelocities` in the value model. -/
def getParticleVelocities (s : SPHState) : List Vec3 :=
  s.particles.map fun p => p.velocity

/-- One axis loop of `initializeParticles`
(`for (v = lo; v < hi; v += spacing)`), run for `fuel` iterations: the
list of loop-variable values visited.  The source loop has no termination
guarantee (with `spacing ≤ 0` and `lo < hi` it never exits), so the model
makes the iteration count explicit. -/
def seedAxisFuel (fuel : ℕ) (lo hi spacing : ℝ) : List ℝ :=
  match fuel with
  | 0 => []
  | f + 1 => if lo < hi then lo :: seedAxisFuel f (lo + spacing) hi spacing else []

/-- The number of iterations the axis loop performs when it terminates:
the number of naturals `k` with `lo + k·spacing < hi`, i.e.
`⌈(hi − lo)/spacing⌉` for positive spacing. -/
def axisCount (lo hi spacing : ℝ) : ℕ :=
  (⌈(hi - lo) / spacing⌉).toNat

/-- The axis loop with exactly enough fuel: for `spacing > 0` this is the
full (terminating) run of the source loop. -/
def seedAxis (lo hi spacing : ℝ) : List ℝ :=
  seedAxisFuel (axisCount lo hi spacing) lo hi spacing

/-- A freshly seeded particle: `velocity` zero, `density` the current rest
density, `pressure` 0. -/
def freshParticle (rest : ℝ) (x y z : ℝ) : Particle :=
  { position := ![x, y, z]
    velocity := 0
    density := rest
    pressure := 0 }

/-- The triple-nested lattice loop of `initializeParticles`: one particle
per lattice point, in x-outer / y-middle / z-inner order. -/
def latticeParticles (rest : ℝ) (bmin bmax : Vec3) (spacing : ℝ) :
    List Particle :=
  (seedAxis (bmin 0) (bmax 0) spacing).flatMap fun x =>
    (seedAxis (bmin 1) (bmax 1) spacing).flatMap fun y =>
      (seedAxis (bmin 2) (bmax 2) spacing).map fun z =>
        freshParticle rest x y z

/-- Source `initializeParticles(startVolume, particleSpacing)`: push the lattice
particles onto the existing array (the source never clears it). -/
def initializeParticles (s : SPHState) (mn mx : Vec3) (spacing : ℝ) :
    SPHState :=
  { s with particles :=
      s.particles ++ latticeParticles s.prm.restDensity mn mx spacing }

/-- Source `resetSimulation`: clear the particle array, then re-seed over the
stored bounding box with the kernel radius as spacing. -/
def resetSimulation (s : SPHState) : SPHState :=
  initializeParticles { s with particles := [] } s.bmin s.bmax
    s.prm.kernelRadius

/-- A concrete engine state used to evaluate `step` on concrete inputs:
one particle at the origin with unit velocity, inside the box
`[-10, 10]³`, with the default parameters. -/
def cState : SPHState :=
  { particles :=
      [{ position := fun _ => 0
         velocity := fun _ => 1
         density := 1000
         pressure := 0 }]
    prm := defaultParams
    bmin := fun _ => -10
    bmax := fun _ => 10 }

/-!
## The reference (store) model of the accessor methods

`getParticlePositions` returns `this.particles.map(p => p.position)`: a
fresh array whose elements are the very `vec3` objects the simulation
mutates in place (`vec3.scaleAndAdd(particle.position, …)`,
`vec3.add(particle.velocity, …)`, `particle.position[index] = …`).  To
reason about that aliasing we give a second translation of the engine in
which every `vec3` lives in an explicit store and particles hold
references (store indices); the scalar fields (`density`, `pressure`) are
JavaScript numbers, hence values. -/

/-- A particle in the store model: references to its position and
velocity vectors plus its scalar fields. -/
structure RefParticle where
  posRef : ℕ
  velRef : ℕ
  density : ℝ
  pressure : ℝ

/-- A default `RefParticle` for `List.getD`. -/
def rdummy : RefParticle :=
  { posRef := 0, velRef := 0, density := 0, pressure := 0 }

/-- Engine state in the store model: the heap of `vec3` objects and the
particle array. -/
structure RefState where
  store : List Vec3
  particles : List RefParticle

/-- Dereference a `vec3` reference. -/
def deref (σ : RefState) (r : ℕ) : Vec3 :=
  σ.store.getD r 0

/-- Accessor `getParticlePositions`: the returned array holds one position
reference per particle, in particle order. -/
def getPositionRefs (σ : RefState) : List ℕ :=
  σ.particles.map fun p => p.posRef

/-- Accessor `getParticleVelocities` in the store model. -/
def getVelocityRefs (σ : RefState) : List ℕ :=
  σ.particles.map fun p => p.velRef

/-- The density pass in the store model. -/
def calculateDensityR (prm : SimParams) (σ : RefState) : RefState :=
  { σ with particles := σ.particles.map fun p =>
      { p with density :=
          (σ.particles.foldl
            (fun d q =>
              if dist3 (deref σ p.posRef) (deref σ q.posRef)
                  < prm.kernelRadius then
                d + poly6Kernel prm.kernelRadius
                  (dist3 (deref σ p.posRef) (deref σ q.posRef))
              else d)
            0) } }

/-- The pressure pass in the store model. -/
def calculatePressureR (prm : SimParams) (σ : RefState) : RefState :=
  { σ with particles := σ.particles.map fun p =>
      { p with pressure :=
          (prm.pressureCoefficient * (p.density - prm.restDensity)) } }

/-- The inner accumulation of the force pass in the store model. -/
def forcesForR (prm : SimParams) (σ : RefState) (i : ℕ) : Vec3 × Vec3 :=
  (List.range σ.particles.length).foldl
    (fun acc j =>
      let p := σ.particles.getD i rdummy
      let q := σ.particles.getD j rdummy
      if j ≠ i ∧ dist3 (deref σ p.posRef) (deref σ q.posRef)
          < prm.kernelRadius then
        (acc.1 + ((p.pressure + q.pressure) / (2 * q.density))
            • (deref σ q.posRef - deref σ p.posRef),
         acc.2 + (deref σ q.velRef - deref σ p.velRef))
      else acc)
    (0, 0)

/-- One iteration of the force pass in the store model: write the updated
velocity back into the store (`vec3.add(particle.velocity, …)` mutates the
velocity object in place). -/
def forceBodyR (prm : SimParams) (dt : ℝ) (σ : RefState) (i : ℕ) :
    RefState :=
  let p := σ.particles.getD i rdummy
  let f := forcesForR prm σ i
  { σ with store :=
      (σ.store.set p.velRef
        (deref σ p.velRef + dt • f.1
          + (prm.viscosityCoefficient * dt) • f.2)) }

/-- The force pass in the store model. -/
def applyForcesR (prm : SimParams) (dt : ℝ) (σ : RefState) : RefState :=
  (List.range σ.particles.length).foldl (forceBodyR prm dt) σ

/-- One iteration of the integration/boundary pass in the store model:
`vec3.scaleAndAdd` writes the integrated position into the position
object, then the boundary check rewrites position and velocity
componentwise. -/
def updateBodyR (bmin bmax : Vec3) (dt : ℝ) (σ : RefState) (i : ℕ) :
    RefState :=
  let p := σ.particles.getD i rdummy
  let q : Vec3 := fun k => deref σ p.posRef k + deref σ p.velRef k * dt
  { σ with store :=
      ((σ.store.set p.posRef
        (fun k => (clampAxis (bmin k) (bmax k) (q k) (deref σ p.velRef k)).1)).set
        p.velRef
        (fun k => (clampAxis (bmin k) (bmax k) (q k) (deref σ p.velRef k)).2)) }

/-- The integration/boundary pass in the store model. -/
def updatePositionsR (bmin bmax : Vec3) (dt : ℝ) (σ : RefState) : RefState :=
  (List.range σ.particles.length).foldl (updateBodyR bmin bmax dt) σ

/-- Operation `step` in the store model. -/
def stepR (prm : SimParams) (bmin bmax : Vec3) (dt : ℝ) (σ : RefState) :
    RefState :=
  updatePositionsR bmin bmax dt
    (applyForcesR prm dt
      (calculatePressureR prm
        (calculateDensityR prm σ)))

/-- A concrete store-model state: one particle whose position vector (at
store index 0) is the origin and whose velocity vector (at store index 1)
is the unit diagonal. -/
def cRefState : RefState :=
  { store := [fun _ => 0, fun _ => 1]
    particles := [{ posRef := 0, velRef := 1, density := 1000, pressure := 0 }] }

/-! ## Basic lemmas -/

lemma dist3_self (a : Vec3) : dist3 a a = 0 := by
  simp [dist3]

lemma getD_map_particle (f : Particle → Particle) (P : List Particle)
    {i : ℕ} (hi : i < P.length) :
    (P.map f).getD i dummy = f (P.getD i dummy) := by
  simp [List.getD_eq_getElem?_getD, List.getElem?_map,
    List.getElem?_eq_getElem hi]

/-- The density accumulation loop, with the accumulator generalized, equals
the accumulator plus an indexed conditional sum. -/
lemma densityLoop_aux (prm : SimParams) (pos : Vec3) :
    ∀ (P : List Particle) (a : ℝ),
      P.foldl
        (fun d q =>
          if dist3 pos q.position < prm.kernelRadius then
            d + poly6Kernel prm.kernelRadius (dist3 pos q.position)
          else d) a
      = a + ∑ j ∈ Finset.range P.length,
          (if dist3 pos ((P.getD j dummy).position) < prm.kernelRadius then
            poly6Kernel prm.kernelRadius (dist3 pos ((P.getD j dummy).position))
          else 0) := by
  intro P
  induction P with
  | nil => intro a; simp
  | cons q Q ih =>
    intro a
    simp only [List.foldl_cons, List.length_cons]
    rw [ih, Finset.sum_range_succ']
    simp only [List.getD_cons_succ, List.getD_cons_zero]
    by_cases hc : dist3 pos q.position < prm.kernelRadius
    · simp only [if_pos hc]; ring
    · simp only [if_neg hc]; ring

lemma densityLoop_eq (prm : SimParams) (P : List Particle) (pos : Vec3) :
    densityLoop prm P pos
      = ∑ j ∈ Finset.range P.length,
          (if dist3 pos ((P.getD j dummy).position) < prm.kernelRadius then
            poly6Kernel prm.kernelRadius (dist3 pos ((P.getD j dummy).position))
          else 0) := by
  rw [densityLoop, densityLoop_aux]
  ring

lemma poly6Kernel_nonneg (h r : ℝ) : 0 ≤ poly6Kernel h r :=
  le_max_left 0 _

lemma poly6Kernel_zero_of_le (h r : ℝ) (h0 : 0 < h) (hr : h ≤ r) :
    poly6Kernel h r = 0 := by
  have hC : (0 : ℝ) ≤ 315 / (64 * Real.pi * h ^ 9) := by positivity
  have hsq : h * h ≤ r * r :=
    mul_self_le_mul_self (le_of_lt h0) hr
  have hcube : (h * h - r * r) ^ 3 ≤ 0 :=
    Odd.pow_nonpos (⟨1, by norm_num⟩) (by linarith)
  have : 315 / (64 * Real.pi * h ^ 9) * (h * h - r * r) ^ 3 ≤ 0 :=
    mul_nonpos_iff.mpr (Or.inl ⟨hC, hcube⟩)
  simp [poly6Kernel, max_eq_left this]

lemma poly6Kernel_at_zero (h : ℝ) (h0 : 0 < h) :
    poly6Kernel h 0 = 315 / (64 * Real.pi * h ^ 9) * h ^ 6 := by
  have hC : (0 : ℝ) ≤ 315 / (64 * Real.pi * h ^ 9) * h ^ 6 := by positivity
  have : (h * h - 0 * 0) ^ 3 = h ^ 6 := by ring
  rw [poly6Kernel, this, max_eq_right hC]

/-! ## C1: the density pass -/

/-- C1: after the density pass, every particle's density is the sum of
`poly6(r_ij, h)` over exactly the particles `j` (self included) at distance
`r_ij < h`; the kernel `poly6(r, h) = max(0, 315/(64πh⁹)(h² − r²)³)` is
non-negative everywhere and is exactly `0` at `r = h` and beyond. -/
theorem density_pass_spec (prm : SimParams) (P : List Particle)
    (h0 : 0 < prm.kernelRadius) :
    (∀ i, i < P.length →
      ((calculateDensity prm P).getD i dummy).density
        = ∑ j ∈ (Finset.range P.length).filter
            (fun j =>
              dist3 ((P.getD i dummy).position) ((P.getD j dummy).position)
                < prm.kernelRadius),
            poly6Kernel prm.kernelRadius
              (dist3 ((P.getD i dummy).position) ((P.getD j dummy).position)))
    ∧ (∀ r : ℝ, 0 ≤ poly6Kernel prm.kernelRadius r)
    ∧ poly6Kernel prm.kernelRadius prm.kernelRadius = 0
    ∧ (∀ r : ℝ, prm.kernelRadius ≤ r → poly6Kernel prm.kernelRadius r = 0) := by
  refine ⟨?_, poly6Kernel_nonneg _, ?_, fun r hr => poly6Kernel_zero_of_le _ _ h0 hr⟩
  · intro i hi
    rw [calculateDensity, getD_map_particle _ _ hi]
    rw [Finset.sum_filter]
    exact densityLoop_eq prm P ((P.getD i dummy).position)
  · exact poly6Kernel_zero_of_le _ _ h0 le_rfl

/-- Witness for `density_pass_spec` at the default parameters and a
one-particle state. -/
theorem density_pass_spec_witness :
    0 < defaultParams.kernelRadius
    ∧ ((∀ i, i < [dummy].length →
        ((calculateDensity defaultParams [dummy]).getD i dummy).density
          = ∑ j ∈ (Finset.range [dummy].length).filter
              (fun j =>
                dist3 (([dummy].getD i dummy).position)
                    (([dummy].getD j dummy).position)
                  < defaultParams.kernelRadius),
              poly6Kernel defaultParams.kernelRadius
                (dist3 (([dummy].getD i dummy).position)
                  (([dummy].getD j dummy).position)))
      ∧ (∀ r : ℝ, 0 ≤ poly6Kernel defaultParams.kernelRadius r)
      ∧ poly6Kernel defaultParams.kernelRadius defaultParams.kernelRadius = 0
      ∧ (∀ r : ℝ, defaultParams.kernelRadius ≤ r →
          poly6Kernel defaultParams.kernelRadius r = 0)) :=
  ⟨by norm_num [defaultParams],
   density_pass_spec defaultParams [dummy] (by norm_num [defaultParams])⟩

/-! ## The force pass: sequential fold lemmas -/

lemma forceBody_length (prm : SimParams) (dt : ℝ) (P : List Particle)
    (j : ℕ) : (forceBody prm dt P j).length = P.length := by
  rw [forceBody]; exact List.length_set ..

lemma partialForces_zero (prm : SimParams) (dt : ℝ) (P : List Particle) :
    partialForces prm dt P 0 = P := rfl

lemma partialForces_succ (prm : SimParams) (dt : ℝ) (P : List Particle)
    (k : ℕ) :
    partialForces prm dt P (k + 1)
      = forceBody prm dt (partialForces prm dt P k) k := by
  rw [partialForces, partialForces, List.range_succ, List.foldl_append,
    List.foldl_cons, List.foldl_nil]

lemma partialForces_length (prm : SimParams) (dt : ℝ) (P : List Particle)
    (k : ℕ) : (partialForces prm dt P k).length = P.length := by
  induction k with
  | zero => rfl
  | succ k ih => rw [partialForces_succ, forceBody_length, ih]

lemma forceBody_getD_ne (prm : SimParams) (dt : ℝ) (P : List Particle)
    {i j : ℕ} (hij : j ≠ i) :
    (forceBody prm dt P j).getD i dummy = P.getD i dummy := by
  rw [forceBody]
  simp [List.getD_eq_getElem?_getD, List.getElem?_set_ne hij]

/-- Particles not yet reached by the force loop are untouched. -/
lemma partialForces_getD_untouched (prm : SimParams) (dt : ℝ)
    (P : List Particle) {k i : ℕ} (hk : k ≤ i) :
    (partialForces prm dt P k).getD i dummy = P.getD i dummy := by
  induction k with
  | zero => rfl
  | succ k ih =>
    rw [partialForces_succ,
      forceBody_getD_ne _ _ _ (Nat.ne_of_lt hk),
      ih (Nat.le_of_succ_le hk)]

/-- One force-loop iteration never changes a particle's position, density
or pressure (only the velocity of the particle it processes). -/
lemma forceBody_preserves (prm : SimParams) (dt : ℝ) (P : List Particle)
    (j i : ℕ) :
    ((forceBody prm dt P j).getD i dummy).position
        = (P.getD i dummy).position
    ∧ ((forceBody prm dt P j).getD i dummy).density
        = (P.getD i dummy).density
    ∧ ((forceBody prm dt P j).getD i dummy).pressure
        = (P.getD i dummy).pressure := by
  by_cases hij : j = i
  · subst hij
    by_cases hj : j < P.length
    · rw [forceBody]
      simp [List.getD_eq_getElem?_getD, List.getElem?_set_self hj]
    · rw [forceBody, List.set_eq_of_length_le (Nat.le_of_not_lt hj)]
      exact ⟨rfl, rfl, rfl⟩
  · rw [forceBody_getD_ne _ _ _ hij]
    exact ⟨rfl, rfl, rfl⟩

lemma partialForces_preserves (prm : SimParams) (dt : ℝ) (P : List Particle)
    (k i : ℕ) :
    ((partialForces prm dt P k).getD i dummy).position
        = (P.getD i dummy).position
    ∧ ((partialForces prm dt P k).getD i dummy).density
        = (P.getD i dummy).density
    ∧ ((partialForces prm dt P k).getD i dummy).pressure
        = (P.getD i dummy).pressure := by
  induction k with
  | zero => exact ⟨rfl, rfl, rfl⟩
  | succ k ih =>
    rw [partialForces_succ]
    obtain ⟨h1, h2, h3⟩ := forceBody_preserves prm dt (partialForces prm dt P k) k i
    exact ⟨h1.trans ih.1, h2.trans ih.2.1, h3.trans ih.2.2⟩

/-- Indices already processed by the force loop are stable under the
remaining iterations. -/
lemma partialForces_getD_stable (prm : SimParams) (dt : ℝ)
    (P : List Particle) {i : ℕ} :
    ∀ {m : ℕ}, i + 1 ≤ m →
      (partialForces prm dt P m).getD i dummy
        = (partialForces prm dt P (i + 1)).getD i dummy := by
  intro m
  induction m with
  | zero => intro h; exact absurd h (Nat.not_succ_le_zero i)
  | succ m ih =>
    intro h
    rcases Nat.lt_or_ge (i + 1) (m + 1) with hlt | hge
    · rw [partialForces_succ,
        forceBody_getD_ne _ _ _ (Nat.ne_of_gt (Nat.lt_of_succ_lt_succ hlt)),
        ih (Nat.lt_succ_iff.mp hlt)]
    · have : i + 1 = m + 1 := Nat.le_antisymm h hge
      rw [this]

/-- The inner accumulation loop of `applyForces`, as a pair of indexed
conditional sums. -/
lemma forcesFor_eq (prm : SimParams) (P : List Particle) (i : ℕ) :
    forcesFor prm P i
      = (∑ j ∈ Finset.range P.length,
          if j ≠ i ∧
              dist3 (P.getD i dummy).position (P.getD j dummy).position
                < prm.kernelRadius then
            calculatePressureForce (P.getD i dummy) (P.getD j dummy)
          else 0,
         ∑ j ∈ Finset.range P.length,
          if j ≠ i ∧
              dist3 (P.getD i dummy).position (P.getD j dummy).position
                < prm.kernelRadius then
            calculateViscosityForce (P.getD i dummy) (P.getD j dummy)
          else 0) := by
  rw [forcesFor]
  generalize P.length = n
  induction n with
  | zero => simp
  | succ n ih =>
    rw [List.range_succ, List.foldl_append, List.foldl_cons, List.foldl_nil, ih,
      Finset.sum_range_succ, Finset.sum_range_succ]
    by_cases hc : n ≠ i ∧
        dist3 (P.getD i dummy).position (P.getD n dummy).position
          < prm.kernelRadius
    · rw [if_pos hc, if_pos hc, if_pos hc]
    · rw [if_neg hc, if_neg hc, if_neg hc]
      simp

/-! ## C2: the force pass -/

/-- C2: the force pass accumulates, for particle `i`, over exactly the
indices `j ≠ i` within kernel radius: the pressure contribution
`((pressure_i + pressure_j)/(2·density_j)) • (pos_j − pos_i)` and the
viscosity contribution `velocity_j − velocity_i`; the accumulated pressure
force is scaled by `dt`, the viscosity force by
`viscosityCoefficient · dt`, and both are added directly into the velocity
of particle `i` (no division by the mass or the density of `i`); position,
density and pressure are untouched.  The loop mutates the array in place,
so the `velocity_j` read for the viscosity term is the one current when
the loop reaches `i`, i.e. the one of `partialForces prm dt P i` (already
updated for `j < i`, still the input one for `j > i`). -/
theorem force_pass_spec (prm : SimParams) (dt : ℝ) (P : List Particle)
    (i : ℕ) (hi : i < P.length) :
    ((applyForces prm dt P).getD i dummy).position = (P.getD i dummy).position
    ∧ ((applyForces prm dt P).getD i dummy).density = (P.getD i dummy).density
    ∧ ((applyForces prm dt P).getD i dummy).pressure = (P.getD i dummy).pressure
    ∧ ((applyForces prm dt P).getD i dummy).velocity
        = (P.getD i dummy).velocity
          + dt • (∑ j ∈ (Finset.range P.length).filter
                (fun j => j ≠ i ∧
                  dist3 (P.getD i dummy).position (P.getD j dummy).position
                    < prm.kernelRadius),
              (((P.getD i dummy).pressure + (P.getD j dummy).pressure)
                  / (2 * (P.getD j dummy).density))
                • ((P.getD j dummy).position - (P.getD i dummy).position))
          + (prm.viscosityCoefficient * dt) •
              (∑ j ∈ (Finset.range P.length).filter
                (fun j => j ≠ i ∧
                  dist3 (P.getD i dummy).position (P.getD j dummy).position
                    < prm.kernelRadius),
                (((partialForces prm dt P i).getD j dummy).velocity
                  - (P.getD i dummy).velocity)) := by
  have hA : (applyForces prm dt P).getD i dummy
      = (partialForces prm dt P (i + 1)).getD i dummy := by
    rw [applyForces]
    exact partialForces_getD_stable prm dt P hi
  have hQlen : (partialForces prm dt P i).length = P.length :=
    partialForces_length prm dt P i
  have hiQ : i < (partialForces prm dt P i).length := by
    rw [hQlen]; exact hi
  have hQi : (partialForces prm dt P i).getD i dummy = P.getD i dummy :=
    partialForces_getD_untouched prm dt P (le_refl i)
  have hstep : (partialForces prm dt P (i + 1)).getD i dummy
      = { (partialForces prm dt P i).getD i dummy with
          velocity := ((partialForces prm dt P i).getD i dummy).velocity
            + dt • (forcesFor prm (partialForces prm dt P i) i).1
            + (prm.viscosityCoefficient * dt)
                • (forcesFor prm (partialForces prm dt P i) i).2 } := by
    rw [partialForces_succ, forceBody]
    simp [List.getD_eq_getElem?_getD, List.getElem?_set_self hiQ]
  have hp : (forcesFor prm (partialForces prm dt P i) i).1
      = ∑ j ∈ (Finset.range P.length).filter
          (fun j => j ≠ i ∧
            dist3 (P.getD i dummy).position (P.getD j dummy).position
              < prm.kernelRadius),
          (((P.getD i dummy).pressure + (P.getD j dummy).pressure)
              / (2 * (P.getD j dummy).density))
            • ((P.getD j dummy).position - (P.getD i dummy).position) := by
    rw [forcesFor_eq, hQlen, Finset.sum_filter]
    dsimp only
    refine Finset.sum_congr rfl (fun j _ => ?_)
    obtain ⟨hpos, hden, hpre⟩ :=
      partialForces_preserves prm dt P i j
    rw [hQi]
    simp only [calculatePressureForce, hpos, hden, hpre]
  have hv : (forcesFor prm (partialForces prm dt P i) i).2
      = ∑ j ∈ (Finset.range P.length).filter
          (fun j => j ≠ i ∧
            dist3 (P.getD i dummy).position (P.getD j dummy).position
              < prm.kernelRadius),
          (((partialForces prm dt P i).getD j dummy).velocity
            - (P.getD i dummy).velocity) := by
    rw [forcesFor_eq, hQlen, Finset.sum_filter]
    dsimp only
    refine Finset.sum_congr rfl (fun j _ => ?_)
    obtain ⟨hpos, hden, hpre⟩ :=
      partialForces_preserves prm dt P i j
    rw [hQi]
    simp only [calculateViscosityForce, hpos, hden, hpre]
  rw [hA, hstep, hQi, hp, hv]
  exact ⟨rfl, rfl, rfl, rfl⟩

/-- Witness for `force_pass_spec` at a one-particle state. -/
theorem force_pass_spec_witness :
    0 < [dummy].length
    ∧ (((applyForces defaultParams 1 [dummy]).getD 0 dummy).position
          = ([dummy].getD 0 dummy).position
      ∧ ((applyForces defaultParams 1 [dummy]).getD 0 dummy).density
          = ([dummy].getD 0 dummy).density
      ∧ ((applyForces defaultParams 1 [dummy]).getD 0 dummy).pressure
          = ([dummy].getD 0 dummy).pressure
      ∧ ((applyForces defaultParams 1 [dummy]).getD 0 dummy).velocity
          = ([dummy].getD 0 dummy).velocity
            + (1 : ℝ) • (∑ j ∈ (Finset.range [dummy].length).filter
                  (fun j => j ≠ 0 ∧
                    dist3 ([dummy].getD 0 dummy).position
                        ([dummy].getD j dummy).position
                      < defaultParams.kernelRadius),
                ((([dummy].getD 0 dummy).pressure
                      + ([dummy].getD j dummy).pressure)
                    / (2 * ([dummy].getD j dummy).density))
                  • (([dummy].getD j dummy).position
                    - ([dummy].getD 0 dummy).position))
            + (defaultParams.viscosityCoefficient * 1) •
                (∑ j ∈ (Finset.range [dummy].length).filter
                  (fun j => j ≠ 0 ∧
                    dist3 ([dummy].getD 0 dummy).position
                        ([dummy].getD j dummy).position
                      < defaultParams.kernelRadius),
                  (((partialForces defaultParams 1 [dummy] 0).getD j dummy).velocity
                    - ([dummy].getD 0 dummy).velocity))) :=
  ⟨by norm_num, force_pass_spec defaultParams 1 [dummy] 0 (by norm_num)⟩

/-! ## C4: the pressure pass -/

/-- C4: after the pressure pass, every particle's pressure is exactly
`stiffness · (density − restDensity)`; with positive stiffness, a density
below rest density gives a strictly negative pressure (no clamping). -/
theorem pressure_pass_spec (prm : SimParams) (P : List Particle)
    (i : ℕ) (hi : i < P.length) :
    ((calculatePressure prm P).getD i dummy).pressure
      = prm.pressureCoefficient * ((P.getD i dummy).density - prm.restDensity)
    ∧ (0 < prm.pressureCoefficient →
        (P.getD i dummy).density < prm.restDensity →
        ((calculatePressure prm P).getD i dummy).pressure < 0) := by
  rw [calculatePressure, getD_map_particle _ _ hi]
  refine ⟨rfl, fun hc hd => ?_⟩
  have : (P.getD i dummy).density - prm.restDensity < 0 := by linarith
  exact mul_neg_of_pos_of_neg hc this

/-- Witness for `pressure_pass_spec`: the default parameters and a
one-particle state whose density (0) is below rest density (1000). -/
theorem pressure_pass_spec_witness :
    0 < [dummy].length
    ∧ (((calculatePressure defaultParams [dummy]).getD 0 dummy).pressure
        = defaultParams.pressureCoefficient
            * (([dummy].getD 0 dummy).density - defaultParams.restDensity)
      ∧ (0 < defaultParams.pressureCoefficient →
          ([dummy].getD 0 dummy).density < defaultParams.restDensity →
          ((calculatePressure defaultParams [dummy]).getD 0 dummy).pressure < 0)) :=
  ⟨by norm_num, pressure_pass_spec defaultParams [dummy] 0 (by norm_num)⟩

/-! ## C10: the density pass bounds densities away from zero -/

/-- C10: after the density pass every density is at least the kernel
self-contribution `poly6(0, h) = 315/(64πh⁹)·h⁶ > 0`, so the denominator
`2 · density_j` used by `calculatePressureForce` is strictly positive. -/
theorem density_positive_spec (prm : SimParams) (P : List Particle)
    (h0 : 0 < prm.kernelRadius) (i : ℕ) (hi : i < P.length) :
    poly6Kernel prm.kernelRadius 0
        ≤ ((calculateDensity prm P).getD i dummy).density
    ∧ poly6Kernel prm.kernelRadius 0
        = 315 / (64 * Real.pi * prm.kernelRadius ^ 9) * prm.kernelRadius ^ 6
    ∧ 0 < 2 * ((calculateDensity prm P).getD i dummy).density
    ∧ 2 * ((calculateDensity prm P).getD i dummy).density ≠ 0 := by
  have hself : poly6Kernel prm.kernelRadius 0
      ≤ ((calculateDensity prm P).getD i dummy).density := by
    rw [calculateDensity, getD_map_particle _ _ hi]
    show poly6Kernel prm.kernelRadius 0
      ≤ densityLoop prm P ((P.getD i dummy).position)
    rw [densityLoop_eq]
    have hterm :
        (if dist3 ((P.getD i dummy).position) ((P.getD i dummy).position)
              < prm.kernelRadius then
          poly6Kernel prm.kernelRadius
            (dist3 ((P.getD i dummy).position) ((P.getD i dummy).position))
        else 0) = poly6Kernel prm.kernelRadius 0 := by
      rw [dist3_self, if_pos h0]
    calc poly6Kernel prm.kernelRadius 0
        = _ := hterm.symm
      _ ≤ _ :=
        Finset.single_le_sum
          (f := fun j =>
            if dist3 ((P.getD i dummy).position) ((P.getD j dummy).position)
                < prm.kernelRadius then
              poly6Kernel prm.kernelRadius
                (dist3 ((P.getD i dummy).position) ((P.getD j dummy).position))
            else 0)
          (fun j _ => by
            dsimp only
            by_cases hc :
              dist3 ((P.getD i dummy).position) ((P.getD j dummy).position)
                < prm.kernelRadius
            · rw [if_pos hc]; exact poly6Kernel_nonneg _ _
            · rw [if_neg hc])
          (Finset.mem_range.mpr hi)
  have hval := poly6Kernel_at_zero prm.kernelRadius h0
  have hpos : 0 < poly6Kernel prm.kernelRadius 0 := by
    rw [hval]; positivity
  exact ⟨hself, hval, by linarith, by linarith⟩

/-- Witness for `density_positive_spec` at the default parameters and a
one-particle state. -/
theorem density_positive_spec_witness :
    (0 < defaultParams.kernelRadius ∧ 0 < [dummy].length)
    ∧ (poly6Kernel defaultParams.kernelRadius 0
        ≤ ((calculateDensity defaultParams [dummy]).getD 0 dummy).density
      ∧ poly6Kernel defaultParams.kernelRadius 0
          = 315 / (64 * Real.pi * defaultParams.kernelRadius ^ 9)
              * defaultParams.kernelRadius ^ 6
      ∧ 0 < 2 * ((calculateDensity defaultParams [dummy]).getD 0 dummy).density
      ∧ 2 * ((calculateDensity defaultParams [dummy]).getD 0 dummy).density ≠ 0) :=
  ⟨⟨by norm_num [defaultParams], by norm_num⟩,
   density_positive_spec defaultParams [dummy]
     (by norm_num [defaultParams]) 0 (by norm_num)⟩

/-! ## C3: integration and boundary handling -/

lemma clampAxis_mem (lo hi p v : ℝ) (hlh : lo ≤ hi) :
    lo ≤ (clampAxis lo hi p v).1 ∧ (clampAxis lo hi p v).1 ≤ hi := by
  rw [clampAxis]
  by_cases h1 : p < lo
  · rw [if_pos h1]
    simp only
    rw [if_neg (by simpa using hlh)]
    exact ⟨le_rfl, hlh⟩
  · rw [if_neg h1]
    simp only
    by_cases h2 : p > hi
    · rw [if_pos h2]; exact ⟨hlh, le_rfl⟩
    · rw [if_neg h2]; exact ⟨le_of_not_lt h1, le_of_not_lt h2⟩

lemma clampAxis_low (lo hi p v : ℝ) (hlh : lo ≤ hi) (hp : p < lo) :
    clampAxis lo hi p v = (lo, v * (-0.5)) := by
  rw [clampAxis, if_pos hp]
  simp only
  rw [if_neg (by simpa using hlh)]

lemma clampAxis_high (lo hi p v : ℝ) (hp : p > hi) (hlh : lo ≤ hi) :
    clampAxis lo hi p v = (hi, v * (-0.5)) := by
  have h1 : ¬ p < lo := not_lt.mpr (le_trans hlh (le_of_lt hp))
  rw [clampAxis, if_neg h1]
  simp only
  rw [if_pos hp]

/-- C3: after the integration-and-boundary phase, every particle position
lies within `[bmin, bmax]` on every axis (whatever its velocity); and on
each axis independently, a particle whose integrated position crossed the
box minimum (resp. maximum) has its position clamped to that bound and its
velocity component on that axis multiplied by `−0.5`. -/
theorem boundary_spec (bmin bmax : Vec3) (hb : ∀ k, bmin k ≤ bmax k)
    (dt : ℝ) (P : List Particle) :
    (∀ p ∈ updatePositions bmin bmax dt P,
      ∀ k, bmin k ≤ p.position k ∧ p.position k ≤ bmax k)
    ∧ (∀ q : Particle, ∀ k,
        ((integrate dt q).position k < bmin k →
          (handleBoundaryCollision bmin bmax (integrate dt q)).position k = bmin k
          ∧ (handleBoundaryCollision bmin bmax (integrate dt q)).velocity k
              = (integrate dt q).velocity k * (-0.5))
        ∧ ((integrate dt q).position k > bmax k →
          (handleBoundaryCollision bmin bmax (integrate dt q)).position k = bmax k
          ∧ (handleBoundaryCollision bmin bmax (integrate dt q)).velocity k
              = (integrate dt q).velocity k * (-0.5))) := by
  constructor
  · intro p hp k
    rw [updatePositions, List.mem_map] at hp
    obtain ⟨q, _, rfl⟩ := hp
    exact clampAxis_mem _ _ _ _ (hb k)
  · intro q k
    constructor
    · intro hlt
      have := clampAxis_low (bmin k) (bmax k) ((integrate dt q).position k)
        ((integrate dt q).velocity k) (hb k) hlt
      constructor
      · show (clampAxis (bmin k) (bmax k) ((integrate dt q).position k)
          ((integrate dt q).velocity k)).1 = bmin k
        rw [this]
      · show (clampAxis (bmin k) (bmax k) ((integrate dt q).position k)
          ((integrate dt q).velocity k)).2
            = (integrate dt q).velocity k * (-0.5)
        rw [this]
    · intro hgt
      have := clampAxis_high (bmin k) (bmax k) ((integrate dt q).position k)
        ((integrate dt q).velocity k) hgt (hb k)
      constructor
      · show (clampAxis (bmin k) (bmax k) ((integrate dt q).position k)
          ((integrate dt q).velocity k)).1 = bmax k
        rw [this]
      · show (clampAxis (bmin k) (bmax k) ((integrate dt q).position k)
          ((integrate dt q).velocity k)).2
            = (integrate dt q).velocity k * (-0.5)
        rw [this]

/-- Witness for `boundary_spec` at the unit box `[-1, 1]³`. -/
theorem boundary_spec_witness :
    (∀ k : Fin 3, (fun _ : Fin 3 => (-1 : ℝ)) k ≤ (fun _ : Fin 3 => (1 : ℝ)) k)
    ∧ ((∀ p ∈ updatePositions (fun _ => (-1 : ℝ)) (fun _ => (1 : ℝ)) 1 [dummy],
        ∀ k, (fun _ : Fin 3 => (-1 : ℝ)) k ≤ p.position k
          ∧ p.position k ≤ (fun _ : Fin 3 => (1 : ℝ)) k)
      ∧ (∀ q : Particle, ∀ k,
          ((integrate 1 q).position k < (fun _ : Fin 3 => (-1 : ℝ)) k →
            (handleBoundaryCollision (fun _ => (-1 : ℝ)) (fun _ => (1 : ℝ))
                (integrate 1 q)).position k = (fun _ : Fin 3 => (-1 : ℝ)) k
            ∧ (handleBoundaryCollision (fun _ => (-1 : ℝ)) (fun _ => (1 : ℝ))
                (integrate 1 q)).velocity k
                = (integrate 1 q).velocity k * (-0.5))
          ∧ ((integrate 1 q).position k > (fun _ : Fin 3 => (1 : ℝ)) k →
            (handleBoundaryCollision (fun _ => (-1 : ℝ)) (fun _ => (1 : ℝ))
                (integrate 1 q)).position k = (fun _ : Fin 3 => (1 : ℝ)) k
            ∧ (handleBoundaryCollision (fun _ => (-1 : ℝ)) (fun _ => (1 : ℝ))
                (integrate 1 q)).velocity k
                = (integrate 1 q).velocity k * (-0.5)))) :=
  ⟨fun _ => by norm_num,
   boundary_spec (fun _ => (-1 : ℝ)) (fun _ => (1 : ℝ)) (fun _ => by norm_num)
     1 [dummy]⟩

/-! ## Seeding lemmas -/

/-- With non-positive spacing and a non-empty axis range, every iteration
of the axis loop re-establishes the loop condition: the loop consumes all
the fuel it is given, i.e. the source loop never terminates. -/
lemma seedAxisFuel_divergent :
    ∀ (f : ℕ) (lo hi s : ℝ), s ≤ 0 → lo < hi →
      (seedAxisFuel f lo hi s).length = f := by
  intro f
  induction f with
  | zero => intro lo hi s _ _; rfl
  | succ f ih =>
    intro lo hi s hs hlh
    simp only [seedAxisFuel, if_pos hlh, List.length_cons]
    rw [ih (lo + s) hi s hs (by linarith)]

/-- With positive spacing and enough fuel, the axis loop produces exactly
the lattice points `lo + k·s` for `k < ⌈(hi − lo)/s⌉`. -/
lemma seedAxisFuel_eq :
    ∀ (f : ℕ) (lo hi s : ℝ), 0 < s → (hi - lo) / s ≤ (f : ℝ) →
      seedAxisFuel f lo hi s
        = (List.range (axisCount lo hi s)).map (fun k : ℕ => lo + (k : ℝ) * s) := by
  intro f
  induction f with
  | zero =>
    intro lo hi s hs hf
    have h1 : ⌈(hi - lo) / s⌉ ≤ 0 := by
      rw [Int.ceil_le]
      push_cast
      simpa using hf
    have h2 : axisCount lo hi s = 0 := by
      rw [axisCount]; omega
    simp [seedAxisFuel, h2]
  | succ f ih =>
    intro lo hi s hs hf
    by_cases hlh : lo < hi
    · have hxy : (hi - (lo + s)) / s = (hi - lo) / s - 1 := by
        field_simp
        ring
      have hstep : (hi - (lo + s)) / s ≤ (f : ℝ) := by
        rw [hxy]; push_cast at hf ⊢; linarith
      have hm1 : 0 < ⌈(hi - lo) / s⌉ :=
        Int.ceil_pos.mpr (div_pos (by linarith) hs)
      have hcc : axisCount lo hi s = axisCount (lo + s) hi s + 1 := by
        rw [axisCount, axisCount, hxy, Int.ceil_sub_one]
        omega
      simp only [seedAxisFuel, if_pos hlh]
      rw [ih (lo + s) hi s hs hstep, hcc, List.range_succ_eq_map,
        List.map_cons, List.map_map]
      congr 1
      · norm_num
      · congr 1
        funext k
        simp only [Function.comp_apply]
        push_cast
        ring
    · have h0 : (hi - lo) / s ≤ 0 :=
        div_nonpos_iff.mpr (Or.inr ⟨by linarith, le_of_lt hs⟩)
      have h1 : ⌈(hi - lo) / s⌉ ≤ 0 := by
        rw [Int.ceil_le]; push_cast; simpa using h0
      have h2 : axisCount lo hi s = 0 := by
        rw [axisCount]; omega
      simp [seedAxisFuel, if_neg hlh, h2]

/-- For positive spacing, `seedAxis` (the loop with exactly sufficient
fuel) is the lattice of the axis. -/
lemma seedAxis_eq (lo hi s : ℝ) (hs : 0 < s) :
    seedAxis lo hi s
      = (List.range (axisCount lo hi s)).map (fun k : ℕ => lo + (k : ℝ) * s) := by
  apply seedAxisFuel_eq _ _ _ _ hs
  calc (hi - lo) / s ≤ (⌈(hi - lo) / s⌉ : ℝ) := Int.le_ceil _
    _ ≤ ((axisCount lo hi s : ℕ) : ℝ) := by
        rw [axisCount]
        exact_mod_cast Int.self_le_toNat _

lemma seedAxis_length (lo hi s : ℝ) (hs : 0 < s) :
    (seedAxis lo hi s).length = axisCount lo hi s := by
  rw [seedAxis_eq _ _ _ hs, List.length_map, List.length_range]

/-- Every point the axis loop produces lies in the half-open interval
`[lo, hi)`. -/
lemma mem_seedAxis (lo hi s x : ℝ) (hs : 0 < s)
    (hx : x ∈ seedAxis lo hi s) : lo ≤ x ∧ x < hi := by
  rw [seedAxis_eq _ _ _ hs] at hx
  simp only [List.mem_map, List.mem_range] at hx
  obtain ⟨k, hk, rfl⟩ := hx
  constructor
  · have : (0 : ℝ) ≤ (k : ℝ) * s :=
      mul_nonneg (Nat.cast_nonneg k) (le_of_lt hs)
    linarith
  · have hkz : (k : ℤ) < ⌈(hi - lo) / s⌉ := by
      rw [axisCount] at hk
      omega
    have hkr : ((k : ℤ) : ℝ) < (hi - lo) / s := Int.lt_ceil.mp hkz
    have hks : (k : ℝ) * s < hi - lo := by
      rw [← lt_div_iff₀ hs]
      exact_mod_cast hkr
    linarith

lemma mem_latticeParticles (rest : ℝ) (mn mx : Vec3) (s : ℝ) (p : Particle)
    (hp : p ∈ latticeParticles rest mn mx s) :
    ∃ x y z, x ∈ seedAxis (mn 0) (mx 0) s
      ∧ y ∈ seedAxis (mn 1) (mx 1) s
      ∧ z ∈ seedAxis (mn 2) (mx 2) s
      ∧ p = freshParticle rest x y z := by
  rw [latticeParticles] at hp
  simp only [List.mem_flatMap, List.mem_map] at hp
  obtain ⟨x, hx, y, hy, z, hz, rfl⟩ := hp
  exact ⟨x, y, z, hx, hy, hz, rfl⟩

lemma latticeParticles_length (rest : ℝ) (mn mx : Vec3) (s : ℝ)
    (hs : 0 < s) :
    (latticeParticles rest mn mx s).length
      = axisCount (mn 0) (mx 0) s
          * (axisCount (mn 1) (mx 1) s * axisCount (mn 2) (mx 2) s) := by
  rw [latticeParticles]
  rw [List.length_flatMap]
  simp only [Function.comp_def]
  have hinner : ∀ x : ℝ,
      ((seedAxis (mn 1) (mx 1) s).flatMap fun y =>
        (seedAxis (mn 2) (mx 2) s).map fun z =>
          freshParticle rest x y z).length
      = axisCount (mn 1) (mx 1) s * axisCount (mn 2) (mx 2) s := by
    intro x
    rw [List.length_flatMap]
    simp only [Function.comp_def]
    have hz : ∀ y : ℝ,
        ((seedAxis (mn 2) (mx 2) s).map fun z =>
          freshParticle rest x y z).length
        = axisCount (mn 2) (mx 2) s := by
      intro y
      rw [List.length_map, seedAxis_length _ _ _ hs]
    simp only [hz, List.map_const', List.sum_replicate, smul_eq_mul,
      seedAxis_length _ _ _ hs]
  simp only [hinner, List.map_const', List.sum_replicate, smul_eq_mul,
    seedAxis_length _ _ _ hs]

/-! ## C8: seeding a cube -/

/-- C8: with `spacing > 0`, seeding an empty engine over the cube
`[mn, mn + L]³` produces exactly `⌈L/spacing⌉³` particles (half-open
lattice per axis), each positioned inside the seeded region, with zero
velocity, density equal to the rest density, and zero pressure. -/
theorem seeding_count_spec (s : SPHState) (mn : Vec3) (L spacing : ℝ)
    (hsp : 0 < spacing) (hemp : s.particles = []) :
    (initializeParticles s mn (fun k => mn k + L) spacing).particles.length
        = (⌈L / spacing⌉.toNat) ^ 3
    ∧ ∀ p ∈ (initializeParticles s mn (fun k => mn k + L) spacing).particles,
        (∀ k, mn k ≤ p.position k ∧ p.position k < mn k + L)
        ∧ p.velocity = 0
        ∧ p.density = s.prm.restDensity
        ∧ p.pressure = 0 := by
  have haxis : ∀ a : ℝ, axisCount a (a + L) spacing = (⌈L / spacing⌉).toNat := by
    intro a
    rw [axisCount, add_sub_cancel_left]
  constructor
  · rw [initializeParticles]
    simp only [hemp, List.nil_append]
    rw [latticeParticles_length _ _ _ _ hsp]
    simp only [haxis]
    ring
  · intro p hp
    simp only [initializeParticles, hemp, List.nil_append] at hp
    obtain ⟨x, y, z, hx, hy, hz, rfl⟩ :=
      mem_latticeParticles _ _ _ _ _ hp
    have hxb := mem_seedAxis _ _ _ _ hsp hx
    have hyb := mem_seedAxis _ _ _ _ hsp hy
    have hzb := mem_seedAxis _ _ _ _ hsp hz
    refine ⟨?_, rfl, rfl, rfl⟩
    intro k
    fin_cases k
    · simpa [freshParticle] using hxb
    · simpa [freshParticle] using hyb
    · simpa [freshParticle] using hzb

/-- Witness for `seeding_count_spec`: a 1×1×1 cube at the origin with
spacing 0.2 on an empty engine. -/
theorem seeding_count_spec_witness :
    ((0 : ℝ) < 0.2
      ∧ (SPHState.mk [] defaultParams (fun _ => 0) (fun _ => 1)).particles = [])
    ∧ ((initializeParticles (SPHState.mk [] defaultParams (fun _ => 0) (fun _ => 1)) (fun _ => 0) (fun k => (fun _ : Fin 3 => (0 : ℝ)) k + 1) 0.2).particles.length
        = (⌈(1 : ℝ) / 0.2⌉.toNat) ^ 3
      ∧ ∀ p ∈ (initializeParticles (SPHState.mk [] defaultParams (fun _ => 0) (fun _ => 1)) (fun _ => 0) (fun k => (fun _ : Fin 3 => (0 : ℝ)) k + 1) 0.2).particles,
          (∀ k, (fun _ : Fin 3 => (0 : ℝ)) k ≤ p.position k
            ∧ p.position k < (fun _ : Fin 3 => (0 : ℝ)) k + 1)
          ∧ p.velocity = 0
          ∧ p.density
              = (SPHState.mk [] defaultParams (fun _ => 0) (fun _ => 1)).prm.restDensity
          ∧ p.pressure = 0) :=
  ⟨⟨by norm_num, rfl⟩,
   seeding_count_spec (SPHState.mk [] defaultParams (fun _ => 0) (fun _ => 1))
     (fun _ => 0) 1 0.2 (by norm_num) rfl⟩

/-! ## C9: seeding appends; reset clears and re-seeds -/

/-- C9: `initializeParticles` appends the lattice to the existing particle
array (never clears it), so the count afterwards is the previous count
plus the lattice count; `resetSimulation` first empties the array and
re-seeds over the stored bounding box with the engine's kernel radius as
spacing, and `setSimulationParameters` never changes that radius. -/
theorem seeding_appends_spec (s : SPHState) (mn mx : Vec3)
    (spacing d v fr : ℝ) :
    (initializeParticles s mn mx spacing).particles
        = s.particles ++ latticeParticles s.prm.restDensity mn mx spacing
    ∧ (initializeParticles s mn mx spacing).particles.length
        = s.particles.length
          + (latticeParticles s.prm.restDensity mn mx spacing).length
    ∧ (resetSimulation s).particles
        = latticeParticles s.prm.restDensity s.bmin s.bmax s.prm.kernelRadius
    ∧ (setSimulationParameters s d v fr).prm.kernelRadius
        = s.prm.kernelRadius := by
  refine ⟨rfl, List.length_append .., ?_, rfl⟩
  rw [resetSimulation, initializeParticles]
  simp

/-! ## C5: the seeding loops perform no validation -/

/-- C5 (against the `InvalidParameter` requirement): with spacing `0` and
the non-empty axis range `[0, 1)`, the seeding loop never terminates —
after `f` iterations, for every `f`, the loop condition still holds; and
with an inverted region the operation silently leaves the particle array
unchanged.  No error is ever raised. -/
theorem seeding_no_validation_spec :
    (∀ f : ℕ, (seedAxisFuel f 0 1 0).length = f)
    ∧ (∀ s : SPHState,
        (initializeParticles s (fun _ => 1) (fun _ => 0) 1).particles
          = s.particles) := by
  constructor
  · intro f
    exact seedAxisFuel_divergent f 0 1 0 le_rfl (by norm_num)
  · intro s
    rw [initializeParticles]
    have h0 : axisCount 1 0 1 = 0 := by
      rw [axisCount]
      have h2 : ((0 : ℝ) - 1) / 1 = ((-1 : ℤ) : ℝ) := by norm_num
      rw [h2, Int.ceil_intCast]
      rfl
    have hsa : seedAxis 1 0 1 = [] := by
      rw [seedAxis, h0]
      rfl
    simp [latticeParticles, hsa]


/-! ## C6: step performs no deltaTime validation -/

/-- C6 (amended): `step` performs no validation of `deltaTime`: for any
non-positive `deltaTime` it raises nothing and simply runs the four-phase
pipeline (so the particle state is, in general, changed). -/
theorem step_no_validation_spec (s : SPHState) (dt : ℝ) (_hdt : dt ≤ 0) :
    (step s dt).prm = s.prm
    ∧ (step s dt).bmin = s.bmin
    ∧ (step s dt).bmax = s.bmax
    ∧ (step s dt).particles.length = s.particles.length
    ∧ (step s dt).particles
        = updatePositions s.bmin s.bmax dt
            (applyForces s.prm dt
              (calculatePressure s.prm (calculateDensity s.prm s.particles))) := by
  refine ⟨rfl, rfl, rfl, ?_, rfl⟩
  show (updatePositions s.bmin s.bmax dt
      (applyForces s.prm dt
        (calculatePressure s.prm (calculateDensity s.prm s.particles)))).length
    = s.particles.length
  rw [updatePositions, List.length_map, applyForces, partialForces_length,
    calculatePressure, List.length_map, calculateDensity, List.length_map]

/-- Witness for `step_no_validation_spec` at `deltaTime = -1` on a concrete
state. -/
theorem step_no_validation_spec_witness :
    (-1 : ℝ) ≤ 0
    ∧ ((step cState (-1)).prm = cState.prm
      ∧ (step cState (-1)).bmin = cState.bmin
      ∧ (step cState (-1)).bmax = cState.bmax
      ∧ (step cState (-1)).particles.length = cState.particles.length
      ∧ (step cState (-1)).particles
          = updatePositions cState.bmin cState.bmax (-1)
              (applyForces cState.prm (-1)
                (calculatePressure cState.prm
                  (calculateDensity cState.prm cState.particles)))) :=
  ⟨by norm_num, step_no_validation_spec cState (-1) (by norm_num)⟩

/-- C6 counterexample: `step` called with the non-positive `deltaTime`
`-1` on a concrete one-particle state raises no error and does not leave
the particle state unchanged: the particle's x-position moves from `0` to
`-1`. -/
theorem step_nonpositive_dt_counterexample :
    (cState.particles.getD 0 dummy).position 0 = 0
    ∧ ((step cState (-1)).particles.getD 0 dummy).position 0 = -1 := by
  constructor
  · rfl
  · norm_num [step, cState, updatePositions, applyForces, partialForces,
      forceBody, forcesFor, calculatePressure, calculateDensity, densityLoop,
      integrate, handleBoundaryCollision, clampAxis, defaultParams,
      List.range_succ, dist3_self]


/-! ## C7: the accessor methods return live references, not snapshots -/

lemma getD_map_posRef (l : List RefParticle) {i : ℕ} (hi : i < l.length) :
    (l.map (fun p => p.posRef)).getD i 0 = (l.getD i rdummy).posRef := by
  simp [List.getD_eq_getElem?_getD, List.getElem?_map,
    List.getElem?_eq_getElem hi]

/-- A fold whose body never touches the particle array leaves it
unchanged. -/
lemma foldl_particles_invariant (g : RefState → ℕ → RefState)
    (hg : ∀ σ i, (g σ i).particles = σ.particles) :
    ∀ (l : List ℕ) (σ : RefState), (l.foldl g σ).particles = σ.particles := by
  intro l
  induction l with
  | nil => intro σ; rfl
  | cons j l ih =>
    intro σ
    rw [List.foldl_cons, ih (g σ j), hg]

lemma applyForcesR_particles (prm : SimParams) (dt : ℝ) (σ : RefState) :
    (applyForcesR prm dt σ).particles = σ.particles := by
  rw [applyForcesR]
  exact foldl_particles_invariant (forceBodyR prm dt) (fun _ _ => rfl) _ σ

lemma updatePositionsR_particles (bmin bmax : Vec3) (dt : ℝ) (σ : RefState) :
    (updatePositionsR bmin bmax dt σ).particles = σ.particles := by
  rw [updatePositionsR]
  exact foldl_particles_invariant (updateBodyR bmin bmax dt) (fun _ _ => rfl) _ σ

/-- A full `step` never changes which position vector a particle
references. -/
lemma stepR_posRefs (prm : SimParams) (bmin bmax : Vec3) (dt : ℝ)
    (σ : RefState) :
    (stepR prm bmin bmax dt σ).particles.map (fun p => p.posRef)
      = σ.particles.map (fun p => p.posRef) := by
  rw [stepR, updatePositionsR_particles, applyForcesR_particles,
    calculatePressureR, calculateDensityR]
  simp only [List.map_map]
  rfl

/-- C7 (amended): `getParticlePositions` returns, in particle order, one
reference per particle — but each is a reference to the particle's live
position vector, not a snapshot: `step` leaves the references unchanged,
and reading through the sequence returned *before* a step yields the
stepped engine's current positions, so the values observed through the
returned sequence are not independent of subsequent mutation. -/
theorem getPositions_live_spec (σ : RefState) (prm : SimParams)
    (bmin bmax : Vec3) (dt : ℝ) (i : ℕ) (hi : i < σ.particles.length) :
    (getPositionRefs σ).length = σ.particles.length
    ∧ (getPositionRefs σ).getD i 0 = (σ.particles.getD i rdummy).posRef
    ∧ (getPositionRefs (stepR prm bmin bmax dt σ)).getD i 0
        = (getPositionRefs σ).getD i 0
    ∧ deref (stepR prm bmin bmax dt σ) ((getPositionRefs σ).getD i 0)
        = deref (stepR prm bmin bmax dt σ)
            ((getPositionRefs (stepR prm bmin bmax dt σ)).getD i 0) := by
  have h3 : (getPositionRefs (stepR prm bmin bmax dt σ)).getD i 0
      = (getPositionRefs σ).getD i 0 := by
    rw [getPositionRefs, getPositionRefs, stepR_posRefs]
  exact ⟨List.length_map _ _, getD_map_posRef _ hi, h3,
    congrArg (deref (stepR prm bmin bmax dt σ)) h3.symm⟩

/-- Witness for `getPositions_live_spec` on a concrete one-particle
state. -/
theorem getPositions_live_spec_witness :
    0 < cRefState.particles.length
    ∧ ((getPositionRefs cRefState).length = cRefState.particles.length
      ∧ (getPositionRefs cRefState).getD 0 0
          = (cRefState.particles.getD 0 rdummy).posRef
      ∧ (getPositionRefs (stepR defaultParams (fun _ => -10) (fun _ => 10) 1
            cRefState)).getD 0 0
          = (getPositionRefs cRefState).getD 0 0
      ∧ deref (stepR defaultParams (fun _ => -10) (fun _ => 10) 1 cRefState)
            ((getPositionRefs cRefState).getD 0 0)
          = deref (stepR defaultParams (fun _ => -10) (fun _ => 10) 1 cRefState)
              ((getPositionRefs (stepR defaultParams (fun _ => -10)
                  (fun _ => 10) 1 cRefState)).getD 0 0)) :=
  ⟨by norm_num [cRefState],
   getPositions_live_spec cRefState defaultParams (fun _ => -10)
     (fun _ => 10) 1 0 (by norm_num [cRefState])⟩

/-- C7 counterexample: on a concrete engine the value read through the
sequence that `getParticlePositions` returned *before* a step changes when
the engine steps (x-coordinate 0 before, 1 after): the returned sequence
is not a snapshot independent of subsequent mutation. -/
theorem getPositions_counterexample :
    deref cRefState ((getPositionRefs cRefState).getD 0 0) 0 = 0
    ∧ deref (stepR defaultParams (fun _ => -10) (fun _ => 10) 1 cRefState)
        ((getPositionRefs cRefState).getD 0 0) 0 = 1 := by
  constructor
  · rfl
  · norm_num [stepR, cRefState, updatePositionsR, applyForcesR, forceBodyR,
      updateBodyR, forcesForR, calculatePressureR, calculateDensityR, deref,
      getPositionRefs, clampAxis, defaultParams, List.range_succ, dist3_self]

end
